import Mathlib

/-!
Verification development for the HydroData_CHINA areal-rainfall pipeline.

Shallow embedding of:
* `src/hydrodata_china/settings/rainfall_methods.py`
  (`arithmetic_mean`, `thiessen_polygon_mean`, `inverse_distance_weighting`),
* `src/hydrodata_china/datasets/anhui/meteorological/step1_new.py`
  (the `thiessen_row` per-timestamp reduction),
* `src/hydrodata_china/datasets/anhui/meteorological/step1_basin_1h_p_anhui.py`
  (`collect_stations_in_buffer` station selection semantics and the
  time-series alignment portion of `process_rainfall_for_basin`).

Modelling conventions:
* Python floats are modelled as `ℚ`; a NaN (missing value, `pd.isna`) is
  `none` in `Option ℚ`.  All embedded numeric operations in the claims are
  exact in the source up to floating-point rounding, which `ℚ` idealises.
* Timestamps are hours since an arbitrary epoch, as `ℕ`; pandas `NaT`
  (the min/max of an empty datetime series) is `none` in `Option ℕ`.
* External geometry libraries (scipy `Voronoi`, shapely intersection/area)
  are oracles passed as explicit function arguments: `scipy.spatial.Voronoi`
  is a function producing a `VoronoiData` record (its `vertices`,
  `point_region`, `regions` attributes, with `-1` marking an unbounded
  region exactly as scipy does), and the shapely computation
  `Polygon(vertices).intersection(basin)` is a function from the cell's
  vertex list to `none` (empty intersection) or `some a` (intersection of
  area `a`).  The embedded algorithms consume the oracles exactly where the
  Python code calls the libraries.
-/

namespace HydroData

/-- Python float-or-NaN value: `none` models NaN / missing. -/
abbrev Val := Option ℚ

/-- Embedding of `rainfall_methods.arithmetic_mean`: drop NaNs, return the
mean of the remaining values, or NaN when none remain. -/
def arithmetic_mean (rainfall_values : List Val) : Val :=
  let valid_values := rainfall_values.filterMap id
  if valid_values.isEmpty then none
  else some (valid_values.sum / (valid_values.length : ℚ))

/-- Indices of non-NaN entries: `[i for i, val in enumerate(rainfall_values)
if not pd.isna(val)]`, shared by the Thiessen and IDW functions. -/
def valid_indices (rainfall_values : List Val) : List ℕ :=
  (List.range rainfall_values.length).filter
    (fun i => (rainfall_values.getD i none).isSome)

/-- Coordinates of the valid stations:
`[station_points[i] for i in valid_indices]`. -/
def valid_points (station_points : List (ℚ × ℚ)) (rainfall_values : List Val) :
    List (ℚ × ℚ) :=
  (valid_indices rainfall_values).map (fun i => station_points.getD i (0, 0))

/-- Values of the valid stations: `[rainfall_values[i] for i in valid_indices]`.
All selected entries are `some`, so the `getD 0` defaults are never used. -/
def valid_values (rainfall_values : List Val) : List ℚ :=
  (valid_indices rainfall_values).map
    (fun i => (rainfall_values.getD i none).getD 0)

/-- Record of the `scipy.spatial.Voronoi` attributes the source reads.
An entry `-1` in a region's vertex-index list marks an unbounded cell
(scipy's encoding for the cells of convex-hull input points). -/
structure VoronoiData where
  vertices : List (ℚ × ℚ)
  point_region : List ℕ
  regions : List (List ℤ)

/-- `vor.regions[vor.point_region[i]]` — the vertex-index list of the
Voronoi cell of input point `i`. -/
def regionOfPoint (vor : VoronoiData) (i : ℕ) : List ℤ :=
  vor.regions.getD (vor.point_region.getD i 0) []

/-- `[vor.vertices[j] for j in region]` — the cell's vertex coordinates. -/
def regionVertices (vor : VoronoiData) (region : List ℤ) : List (ℚ × ℚ) :=
  region.map (fun j => vor.vertices.getD j.toNat (0, 0))

/-- Loop body of `thiessen_polygon_mean`: the running pair is
`(total_area, weighted_sum)`.  A region containing `-1` or empty is skipped;
otherwise the cell is clipped against the basin (the `clip` oracle models
`Polygon(polygon_vertices).intersection(basin_polygon)`, returning `none`
when the intersection `is_empty`), and a non-empty intersection contributes
its area to `total_area` and value·area to `weighted_sum`. -/
def thiessenStep (vor : VoronoiData) (clip : List (ℚ × ℚ) → Option ℚ)
    (vals : List ℚ) (acc : ℚ × ℚ) (i : ℕ) : ℚ × ℚ :=
  let region := regionOfPoint vor i
  if (-1 : ℤ) ∈ region ∨ region = [] then acc
  else
    match clip (regionVertices vor region) with
    | none => acc
    | some area => (acc.1 + area, acc.2 + vals.getD i 0 * area)

/-- Accumulation loop of `thiessen_polygon_mean` over all (valid) stations:
returns the final `(total_area, weighted_sum)`. -/
def thiessen_sums (vor : VoronoiData) (clip : List (ℚ × ℚ) → Option ℚ)
    (points : List (ℚ × ℚ)) (vals : List ℚ) : ℚ × ℚ :=
  (List.range points.length).foldl (thiessenStep vor clip vals) (0, 0)

/-- Tail of `thiessen_polygon_mean` after the valid-data filter: run the
accumulation loop, then return `weighted_sum / total_area` when
`total_area > 0` and NaN otherwise. -/
def thiessen_of_valid (vor : VoronoiData) (clip : List (ℚ × ℚ) → Option ℚ)
    (points : List (ℚ × ℚ)) (vals : List ℚ) : Val :=
  let s := thiessen_sums vor clip points vals
  if 0 < s.1 then some (s.2 / s.1) else none

/-- Embedding of `rainfall_methods.thiessen_polygon_mean`.  The `voronoi`
argument models the `scipy.spatial.Voronoi` constructor applied to the valid
station points, and `clip` models the shapely cell∩basin computation (the
basin polygon is fixed inside the oracle). -/
def thiessen_polygon_mean (voronoi : List (ℚ × ℚ) → VoronoiData)
    (clip : List (ℚ × ℚ) → Option ℚ)
    (station_points : List (ℚ × ℚ)) (rainfall_values : List Val) : Val :=
  if (valid_indices rainfall_values).isEmpty then none
  else
    thiessen_of_valid (voronoi (valid_points station_points rainfall_values))
      clip (valid_points station_points rainfall_values)
      (valid_values rainfall_values)

/-- Squared Euclidean distance.  The source computes
`np.sqrt(np.sum((station - point)**2))`; only its comparison with `0` and
even powers of it are used by the claims, both expressible through the
square, so the embedding works with squared distances. -/
def dist2 (a b : ℚ × ℚ) : ℚ := (a.1 - b.1) ^ 2 + (a.2 - b.2) ^ 2

/-- Body of the grid-point loop of `inverse_distance_weighting` for one grid
point `g` over the valid stations.  `np.where(distances == 0)[0][0]` (the
first zero-distance station, tested via the squared distance) short-circuits
to that station's value; otherwise weights `1/d**p` are normalised and the
weighted sum returned.  The power is `p = 2 * pHalf` so that
`d ** p = (d²) ** pHalf` stays rational; the source's default `p = 2` is
`pHalf = 1`. -/
def idw_at_point (points : List (ℚ × ℚ)) (vals : List ℚ) (g : ℚ × ℚ)
    (pHalf : ℕ) : ℚ :=
  let d2s := points.map (fun s => dist2 s g)
  match d2s.findIdx? (fun d => d == 0) with
  | some idx => vals.getD idx 0
  | none =>
      let ws := d2s.map (fun d => 1 / d ^ pHalf)
      let nws := ws.map (fun w => w / ws.sum)
      (List.zipWith (fun w v => w * v) nws vals).sum

/-- Embedding of `rainfall_methods.inverse_distance_weighting`: filter valid
stations (NaN when none), estimate each grid point by IDW, return the mean
of the per-grid-point estimates (`np.mean` of an empty array is NaN). -/
def inverse_distance_weighting (station_points : List (ℚ × ℚ))
    (rainfall_values : List Val) (grid_points : List (ℚ × ℚ))
    (pHalf : ℕ) : Val :=
  if (valid_indices rainfall_values).isEmpty then none
  else
    let pts := valid_points station_points rainfall_values
    let vals := valid_values rainfall_values
    let est := grid_points.map (fun g => idw_at_point pts vals g pHalf)
    if est.isEmpty then none else some (est.sum / (est.length : ℚ))

/-- Values of the non-NaN columns of a row, in column order:
`[val for val in row if not pd.isna(val)]` where a row is the list of
(station column name, value) pairs. -/
def row_valid_vals (row : List (String × Val)) : List ℚ :=
  (row.map Prod.snd).filterMap id

/-- Column names of the non-NaN columns:
`[col for col, val in zip(row.index, row) if not pd.isna(val)]`. -/
def row_valid_stcds (row : List (String × Val)) : List String :=
  (row.filter (fun p => p.2.isSome)).map Prod.fst

/-- Coordinates of the valid stations that appear in `station_coords`:
`[station_coords[stcd] for stcd in stcds if stcd in station_coords]`. -/
def row_points (station_coords : List (String × (ℚ × ℚ)))
    (row : List (String × Val)) : List (ℚ × ℚ) :=
  (row_valid_stcds row).filterMap (fun s => List.lookup s station_coords)

/-- Embedding of the `thiessen_row` closure in `step1_new.py`: with at least
3 located valid stations run the Thiessen reduction, with at least one fall
back to the arithmetic mean of the valid values, otherwise NaN. -/
def thiessen_row (voronoi : List (ℚ × ℚ) → VoronoiData)
    (clip : List (ℚ × ℚ) → Option ℚ)
    (station_coords : List (String × (ℚ × ℚ)))
    (row : List (String × Val)) : Val :=
  if 3 ≤ (row_points station_coords row).length then
    thiessen_polygon_mean voronoi clip (row_points station_coords row)
      ((row_valid_vals row).map some)
  else if 0 < (row_points station_coords row).length then
    arithmetic_mean ((row_valid_vals row).map some)
  else none

/-- Topological position of a station point relative to a (buffered) region:
shapely classifies a point as in the interior, on the boundary, or in the
exterior of a polygonal region. -/
inductive PtPos where
  | interior
  | boundary
  | exterior
deriving DecidableEq

/-- Shapely `point.within(region)` for a point geometry: true exactly when
the point lies in the region's interior (a point on the boundary is not
`within`, because `within`/`contains` require the interiors to intersect). -/
def shapely_within (pos : PtPos) : Bool := decide (pos = PtPos.interior)

/-- A station row of the Anhui station shapefile: code and projected
coordinates. -/
structure StationRec where
  stcd : String
  x : ℚ
  y : ℚ
deriving DecidableEq

/-- Station selection of `collect_stations_in_buffer` for one basin:
`stations_gdf[stations_gdf.geometry.within(basin_buffer)]`.  The `locate`
oracle gives shapely's classification of each station point against the
buffered basin polygon `basin_geom.buffer(buffer_distance)`. -/
def collect_stations_in_buffer (locate : StationRec → PtPos)
    (stations : List StationRec) : List StationRec :=
  stations.filter (fun s => shapely_within (locate s))

/-- Positional-argument signature of a Python `def`: the number of
parameters without defaults and the total number of positional parameters. -/
structure PySignature where
  requiredPositional : ℕ
  totalPositional : ℕ

/-- Signature of `inverse_distance_weighting(station_points,
rainfall_values, grid_points, p=2)`: three required parameters, four
positional parameters. -/
def inverse_distance_weighting_signature : PySignature := ⟨3, 4⟩

/-- Signature of `thiessen_polygon_mean(station_points, rainfall_values,
basin_polygon)`: three required positional parameters. -/
def thiessen_polygon_mean_signature : PySignature := ⟨3, 3⟩

/-- Outcome of a CPython positional call: either an arity `TypeError`
raised before the body runs, or the body is evaluated. -/
inductive PyCallOutcome where
  | typeError
  | evaluated
deriving DecidableEq

/-- CPython arity check for a call passing `nargs` positional arguments:
missing required positional arguments, or too many, raise `TypeError`. -/
def pyPositionalCall (sig : PySignature) (nargs : ℕ) : PyCallOutcome :=
  if nargs < sig.requiredPositional ∨ sig.totalPositional < nargs then
    PyCallOutcome.typeError
  else PyCallOutcome.evaluated

/-- Number of positional arguments in the row-wise call
`inverse_distance_weighting([val for val in row if not pd.isna(val)])`
of the `"idw"` branch in both pipeline drivers. -/
def idw_row_call_nargs : ℕ := 1

/-- Number of positional arguments in the row-wise call
`thiessen_polygon_mean([val for val in row if not pd.isna(val)])`
of the `"thiessen"` branch in `step1_basin_1h_p_anhui.py`. -/
def thiessen_row_call_nargs : ℕ := 1

/-- Pandas timestamp-or-NaT: `none` models `NaT`, the min/max of an empty
datetime series. -/
abbrev TM := Option ℕ

/-- Pandas `<` on timestamps: any comparison involving `NaT` is `False`. -/
def ltTM : TM → TM → Bool
  | some a, some b => decide (a < b)
  | _, _ => false

/-- Pandas `>` on timestamps: any comparison involving `NaT` is `False`. -/
def gtTM : TM → TM → Bool
  | some a, some b => decide (b < a)
  | _, _ => false

/-- `df["TM"].min()` of a station's readings: `NaT` when the series is
empty, else the least timestamp. -/
def seriesMin (rs : List (ℕ × ℚ)) : TM :=
  match rs.map Prod.fst with
  | [] => none
  | t :: ts => some (ts.foldl Nat.min t)

/-- `df["TM"].max()` of a station's readings: `NaT` when the series is
empty, else the greatest timestamp. -/
def seriesMax (rs : List (ℕ × ℚ)) : TM :=
  match rs.map Prod.fst with
  | [] => none
  | t :: ts => some (ts.foldl Nat.max t)

/-- `if min_tm is None or tms.min() < min_tm: min_tm = tms.min()` — one
update of the running minimum (`Option TM`: `none` is the Python `None`
initial state, distinct from a stored `NaT`). -/
def updMin (acc : Option TM) (m : TM) : Option TM :=
  match acc with
  | none => some m
  | some cur => if ltTM m cur then some m else some cur

/-- `if max_tm is None or tms.max() > max_tm: max_tm = tms.max()`. -/
def updMax (acc : Option TM) (m : TM) : Option TM :=
  match acc with
  | none => some m
  | some cur => if gtTM m cur then some m else some cur

/-- The `station_dfs` dictionary built by the reading loop: stations whose
rainfall file is missing (`none`) are skipped with `continue`; the rest keep
their (timestamp, value) readings in input order. -/
def loadStations (stations : List (String × Option (List (ℕ × ℚ)))) :
    List (String × List (ℕ × ℚ)) :=
  stations.filterMap (fun e => e.2.map (fun rs => (e.1, rs)))

/-- Final value of `min_tm` after the reading loop (the loop's min-tracking
state only depends on the sequence of loaded series, in order). -/
def overallMin (dfs : List (String × List (ℕ × ℚ))) : Option TM :=
  dfs.foldl (fun acc p => updMin acc (seriesMin p.2)) none

/-- Final value of `max_tm` after the reading loop. -/
def overallMax (dfs : List (String × List (ℕ × ℚ))) : Option TM :=
  dfs.foldl (fun acc p => updMax acc (seriesMax p.2)) none

/-- Per-station deduplicated series lookup: the effect of
`df.groupby("TM", as_index=False)["DRP"].mean()` followed by
`result_df["TM"].map(drp_series)` — at timestamp `t` the mean of all
readings with that timestamp, or NaN when the station has none. -/
def dedupAt (rs : List (ℕ × ℚ)) (t : ℕ) : Option ℚ :=
  let vs := (rs.filter (fun r => r.1 == t)).map Prod.snd
  if vs.isEmpty then none else some (vs.sum / (vs.length : ℚ))

/-- `pd.date_range(start=x, end=y, freq="h")` on non-NaT endpoints: the
hourly timestamps from `x` to `y` inclusive (empty when `y < x`). -/
def date_range_h (x y : ℕ) : List ℕ :=
  if y < x then [] else (List.range (y - x + 1)).map (fun k => x + k)

/-- Result of the alignment portion of `process_rainfall_for_basin`:
the basin is skipped with only a printed message, or a pandas `ValueError`
escapes from `pd.date_range` on `NaT` bounds, or the aligned table (the
hourly axis plus one reindexed column per loaded station) is built. -/
inductive AlignOutcome where
  | skipped
  | valueError
  | table (axis : List ℕ) (cols : List (String × List (Option ℚ)))
deriving DecidableEq

/-- Embedding of the time-series alignment of `process_rainfall_for_basin`
(common to both drivers): read each station's file (`none` models a missing
file), track `min_tm`/`max_tm`, and when `station_dfs` is non-empty and both
bounds are set build the full hourly index and reindex every station onto
it.  With an empty `station_dfs` the function prints and returns normally
(`skipped`); a stored `NaT` bound makes `pd.date_range` raise `ValueError`. -/
def process_rainfall_for_basin
    (stations : List (String × Option (List (ℕ × ℚ)))) : AlignOutcome :=
  let dfs := loadStations stations
  match dfs, overallMin dfs, overallMax dfs with
  | [], _, _ => AlignOutcome.skipped
  | _ :: _, none, _ => AlignOutcome.skipped
  | _ :: _, some _, none => AlignOutcome.skipped
  | _ :: _, some none, some _ => AlignOutcome.valueError
  | _ :: _, some (some _), some none => AlignOutcome.valueError
  | _ :: _, some (some x), some (some y) =>
      AlignOutcome.table (date_range_h x y)
        (dfs.map (fun p => (p.1, (date_range_h x y).map (fun t => dedupAt p.2 t))))

/-- All timestamps appearing in a list of loaded station series. -/
def allT (dfs : List (String × List (ℕ × ℚ))) : List ℕ :=
  (dfs.map (fun p => p.2.map Prod.fst)).flatten

/-- All timestamps appearing in any loaded station's readings. -/
def allTimestamps (stations : List (String × Option (List (ℕ × ℚ)))) : List ℕ :=
  allT (loadStations stations)

/-- Whether an alignment outcome is a raised exception. -/
def raisesException : AlignOutcome → Bool
  | AlignOutcome.valueError => true
  | _ => false

/-- Skip condition of the Thiessen loop for station `i`:
`-1 in region or len(region) == 0`. -/
def thiessen_skipped (vor : VoronoiData) (i : ℕ) : Prop :=
  (-1 : ℤ) ∈ regionOfPoint vor i ∨ regionOfPoint vor i = []

instance (vor : VoronoiData) (i : ℕ) : Decidable (thiessen_skipped vor i) := by
  unfold thiessen_skipped; infer_instance

/-- Area contributed to `total_area` by the cell of station `i` when it is
clipped against the basin: `0` for an empty intersection. -/
def clipVal (vor : VoronoiData) (clip : List (ℚ × ℚ) → Option ℚ) (i : ℕ) : ℚ :=
  (clip (regionVertices vor (regionOfPoint vor i))).getD 0

/-- Contribution of station `i` to `total_area`. -/
def thiessen_term_area (vor : VoronoiData) (clip : List (ℚ × ℚ) → Option ℚ)
    (i : ℕ) : ℚ :=
  if thiessen_skipped vor i then 0 else clipVal vor clip i

/-- Contribution of station `i` to `weighted_sum`. -/
def thiessen_term_weighted (vor : VoronoiData)
    (clip : List (ℚ × ℚ) → Option ℚ) (vals : List ℚ) (i : ℕ) : ℚ :=
  if thiessen_skipped vor i then 0 else vals.getD i 0 * clipVal vor clip i

/-- Three non-collinear stations: `[(0,0), (4,0), (0,4)]`.  Every Voronoi
cell of a 3-point input is unbounded. -/
def tri_points : List (ℚ × ℚ) := [(0, 0), (4, 0), (0, 4)]

/-- Voronoi oracle for `tri_points`: qhull places the single Voronoi vertex
at the circumcenter `(2,2)` and marks all three cells unbounded by listing
`-1` among their vertex indices (`regions[0]` is the usual empty dummy
region). -/
def tri_voronoi : List (ℚ × ℚ) → VoronoiData := fun _ =>
  { vertices := [(2, 2)]
    point_region := [1, 2, 3]
    regions := [[], [-1, 0], [0, -1], [-1, 0]] }

/-- Clip oracle for a basin that is the unit square `[0,1]²`: never
consulted on the `tri_points` input, since every cell is skipped. -/
def tri_clip : List (ℚ × ℚ) → Option ℚ := fun _ => none

/-- True cell∩basin areas for `tri_points` against the unit-square basin:
the square lies entirely inside the cell of station 0 (the region closer to
`(0,0)` than to the others contains `[0,1]²`), so the areas are `1, 0, 0`. -/
def tri_cellArea : ℕ → ℚ := fun i => if i = 0 then 1 else 0

/-- Total area of the unit-square basin used in the `tri_points` scenario. -/
def tri_basinArea : ℚ := 1

/-- Degenerate Voronoi oracle used where the tessellation is never reached. -/
def trivVoronoi : List (ℚ × ℚ) → VoronoiData := fun _ => ⟨[], [], []⟩

/-- Degenerate clip oracle used where clipping is never reached. -/
def trivClip : List (ℚ × ℚ) → Option ℚ := fun _ => none

/-- A sample station record. -/
def stA : StationRec := ⟨"A", 0, 0⟩

/-! ## General lemmas -/

theorem getD_eq_get_of_lt {α : Type} (l : List α) (d : α) (i : ℕ)
    (h : i < l.length) : l.getD i d = l[i] := by
  simp [List.getD_eq_getElem?_getD, List.getElem?_eq_getElem h]

theorem valid_indices_nil (rainfall_values : List Val)
    (h : ∀ v ∈ rainfall_values, v = none) :
    valid_indices rainfall_values = [] := by
  unfold valid_indices
  rw [List.filter_eq_nil_iff]
  intro i hi
  rw [getD_eq_get_of_lt _ _ _ (List.mem_range.mp hi)]
  rw [h _ (List.getElem_mem _)]
  simp

theorem filterMap_id_map_some (l : List ℚ) :
    (l.map some).filterMap id = l := by
  induction l with
  | nil => rfl
  | cons a t ih => simp [ih]

theorem row_valid_lengths (row : List (String × Val)) :
    (row_valid_stcds row).length = (row_valid_vals row).length := by
  induction row with
  | nil => rfl
  | cons p t ih =>
      rcases hp : p.2 with _ | v <;>
        simp [row_valid_stcds, row_valid_vals, List.filter_cons, hp,
          List.filterMap_cons] at * <;> omega

theorem row_points_length_le (station_coords : List (String × (ℚ × ℚ)))
    (row : List (String × Val)) :
    (row_points station_coords row).length ≤ (row_valid_stcds row).length :=
  List.length_filterMap_le _ _

theorem arithmetic_mean_of_row (row : List (String × Val)) :
    arithmetic_mean (row.map Prod.snd) =
      arithmetic_mean ((row_valid_vals row).map some) := by
  unfold arithmetic_mean
  rw [filterMap_id_map_some]
  rfl

/-! ## Claim theorems -/

/-- C3: the `"idw"` branch of both pipeline drivers calls
`inverse_distance_weighting` with a single positional argument although
three parameters are required, and the `"thiessen"` branch of
`step1_basin_1h_p_anhui.py` calls `thiessen_polygon_mean` with a single
argument although three are required; both row-wise calls therefore raise
`TypeError` and never evaluate the interpolation body. -/
theorem row_call_arity_type_error :
    pyPositionalCall inverse_distance_weighting_signature idw_row_call_nargs =
      PyCallOutcome.typeError ∧
    pyPositionalCall thiessen_polygon_mean_signature thiessen_row_call_nargs =
      PyCallOutcome.typeError ∧
    pyPositionalCall inverse_distance_weighting_signature idw_row_call_nargs ≠
      PyCallOutcome.evaluated := by
  decide

/-- C6: with zero non-missing station values each of the three reduction
strategies returns NaN (modelled as `none`), for every choice of station
points, grid points, power parameter, and geometry oracles. -/
theorem zero_valid_returns_nan (voronoi : List (ℚ × ℚ) → VoronoiData)
    (clip : List (ℚ × ℚ) → Option ℚ)
    (station_points grid_points : List (ℚ × ℚ))
    (rainfall_values : List Val) (pHalf : ℕ)
    (h : ∀ v ∈ rainfall_values, v = none) :
    arithmetic_mean rainfall_values = none ∧
    thiessen_polygon_mean voronoi clip station_points rainfall_values = none ∧
    inverse_distance_weighting station_points rainfall_values grid_points
      pHalf = none := by
  have hv : valid_indices rainfall_values = [] := valid_indices_nil _ h
  have hf : rainfall_values.filterMap id = [] := by
    rw [List.filterMap_eq_nil_iff]
    intro a ha
    exact h a ha
  refine ⟨?_, ?_, ?_⟩
  · unfold arithmetic_mean
    simp [hf]
  · unfold thiessen_polygon_mean
    simp [hv]
  · unfold inverse_distance_weighting
    simp [hv]

/-- Witness for C6 at the concrete all-NaN input `[none, none]`. -/
theorem zero_valid_returns_nan_witness :
    arithmetic_mean [none, none] = none ∧
    thiessen_polygon_mean trivVoronoi trivClip [(0, 0), (1, 1)]
      [none, none] = none ∧
    inverse_distance_weighting [(0, 0), (1, 1)] [none, none] [(0, 0)] 1 =
      none :=
  zero_valid_returns_nan trivVoronoi trivClip [(0, 0), (1, 1)] [(0, 0)]
    [none, none] 1 (by decide)

theorem loadStations_nil (stations : List (String × Option (List (ℕ × ℚ))))
    (h : ∀ e ∈ stations, e.2 = none) : loadStations stations = [] := by
  unfold loadStations
  rw [List.filterMap_eq_nil_iff]
  intro e he
  rw [h e he]
  rfl

theorem loadStations_all_empty
    (stations : List (String × Option (List (ℕ × ℚ))))
    (h : ∀ e ∈ stations, e.2 = some []) :
    loadStations stations =
      stations.map (fun e => (e.1, ([] : List (ℕ × ℚ)))) := by
  induction stations with
  | nil => rfl
  | cons e t ih =>
      have he : e.2 = some [] := h e (List.mem_cons_self _ _)
      have ih2 := ih (fun x hx => h x (List.mem_cons_of_mem _ hx))
      show List.filterMap _ (e :: t) = _
      rw [List.filterMap_cons, he]
      show (e.1, ([] : List (ℕ × ℚ))) :: loadStations t = _
      rw [ih2, List.map_cons]

theorem updMin_nat_absorb (m : TM) : updMin (some none) m = some none := by
  cases m <;> simp [updMin, ltTM]

theorem foldl_updMin_nat (dfs : List (String × List (ℕ × ℚ))) :
    dfs.foldl (fun acc p => updMin acc (seriesMin p.2)) (some none) =
      some none := by
  induction dfs with
  | nil => rfl
  | cons p t ih =>
      rw [List.foldl_cons, updMin_nat_absorb]
      exact ih

theorem foldl_updMax_some (dfs : List (String × List (ℕ × ℚ))) (c : TM) :
    ∃ c2, dfs.foldl (fun acc p => updMax acc (seriesMax p.2)) (some c) =
      some c2 := by
  induction dfs generalizing c with
  | nil => exact ⟨c, rfl⟩
  | cons p t ih =>
      rw [List.foldl_cons]
      rcases hb : gtTM (seriesMax p.2) c with _ | _
      · have : updMax (some c) (seriesMax p.2) = some c := by
          simp [updMax, hb]
        rw [this]
        exact ih c
      · have : updMax (some c) (seriesMax p.2) = some (seriesMax p.2) := by
          simp [updMax, hb]
        rw [this]
        exact ih _

/-- C4 counterexample: with zero stations the alignment step of
`process_rainfall_for_basin` returns normally with a skipped basin (it only
prints a message); no exception — in particular no `EmptyInputError`, which
does not exist anywhere in the repository — is raised. -/
theorem empty_input_no_error_cex :
    process_rainfall_for_basin [] = AlignOutcome.skipped ∧
    raisesException (process_rainfall_for_basin []) = false := by
  constructor <;> rfl

/-- C4 amended: given zero stations (or stations none of which has a data
file) the alignment step skips the basin silently and returns normally;
given a non-empty station list all of whose stations have files with zero
readings, `min_tm`/`max_tm` become `NaT` and `pd.date_range` raises a
`ValueError` — in neither case is an `EmptyInputError` raised. -/
theorem empty_input_behavior_amended
    (stations : List (String × Option (List (ℕ × ℚ)))) :
    ((∀ e ∈ stations, e.2 = none) →
      process_rainfall_for_basin stations = AlignOutcome.skipped) ∧
    (stations ≠ [] → (∀ e ∈ stations, e.2 = some []) →
      process_rainfall_for_basin stations = AlignOutcome.valueError) := by
  constructor
  · intro h
    have hl : loadStations stations = [] := loadStations_nil stations h
    simp only [process_rainfall_for_basin, hl]
  · intro hne hall
    have hl := loadStations_all_empty stations hall
    rcases stations with _ | ⟨e, t⟩
    · exact absurd rfl hne
    · simp only [List.map_cons] at hl
      have hmin : overallMin (loadStations ((e :: t))) = some none := by
        rw [hl]
        unfold overallMin
        rw [List.foldl_cons]
        have h1 : updMin none (seriesMin ([] : List (ℕ × ℚ))) = some none := rfl
        rw [h1]
        exact foldl_updMin_nat _
      have hmax : ∃ c2, overallMax (loadStations ((e :: t))) = some c2 := by
        rw [hl]
        unfold overallMax
        rw [List.foldl_cons]
        have h1 : updMax none (seriesMax ([] : List (ℕ × ℚ))) =
            some (seriesMax ([] : List (ℕ × ℚ))) := rfl
        rw [h1]
        exact foldl_updMax_some _ _
      rcases hmax with ⟨c2, hmax⟩
      simp only [process_rainfall_for_basin, hl] at *
      rw [hmin, hmax]

/-- Witness for C4 amended at one station named `"A"` with a file holding
zero readings, and at the empty station list. -/
theorem empty_input_behavior_amended_witness :
    process_rainfall_for_basin [] = AlignOutcome.skipped ∧
    process_rainfall_for_basin [("A", some [])] = AlignOutcome.valueError :=
  ⟨(empty_input_behavior_amended []).1 (by decide),
   (empty_input_behavior_amended [("A", some [])]).2 (by decide) (by decide)⟩

/-- C5 counterexample: a station whose point shapely classifies as lying
exactly on the boundary of the buffered region is not selected by
`collect_stations_in_buffer`, because `geometry.within` is interior-only —
the claim's boundary-inclusive reading fails. -/
theorem buffer_boundary_cex :
    stA ∈ [stA] ∧
    stA ∉ collect_stations_in_buffer (fun _ => PtPos.boundary) [stA] := by
  constructor
  · simp
  · simp [collect_stations_in_buffer, shapely_within]

/-- C5 amended: `collect_stations_in_buffer` returns exactly the stations
whose point lies in the interior of the buffered region — boundary points
are excluded (shapely `within` tests interior containment) — and the
selection is independent of the iteration order of the station collection
(permuting the input permutes the output). -/
theorem buffer_selection_amended (locate : StationRec → PtPos)
    (stations stations2 : List StationRec) (s : StationRec)
    (hperm : stations.Perm stations2) :
    (s ∈ collect_stations_in_buffer locate stations ↔
      s ∈ stations ∧ locate s = PtPos.interior) ∧
    (collect_stations_in_buffer locate stations).Perm
      (collect_stations_in_buffer locate stations2) := by
  constructor
  · unfold collect_stations_in_buffer
    rw [List.mem_filter]
    simp [shapely_within]
  · exact hperm.filter _

/-- Witness for C5 amended: a single interior station is selected, and the
selection is permutation-stable. -/
theorem buffer_selection_amended_witness :
    (stA ∈ collect_stations_in_buffer (fun _ => PtPos.interior) [stA] ↔
      stA ∈ [stA] ∧ (fun _ : StationRec => PtPos.interior) stA =
        PtPos.interior) ∧
    (collect_stations_in_buffer (fun _ => PtPos.interior) [stA]).Perm
      (collect_stations_in_buffer (fun _ => PtPos.interior) [stA]) :=
  buffer_selection_amended (fun _ => PtPos.interior) [stA] [stA] stA
    (List.Perm.refl _)

/-- C2 counterexample: a row with exactly two non-missing values whose
stations both lack entries in `station_coords` makes `thiessen_row` return
NaN, while the arithmetic reduction of the same row returns `3/2`. -/
theorem thiessen_degradation_cex :
    (row_valid_vals [("A", some 1), ("B", some 2)]).length = 2 ∧
    thiessen_row trivVoronoi trivClip [] [("A", some 1), ("B", some 2)] =
      none ∧
    arithmetic_mean ([("A", some 1), ("B", some 2)].map Prod.snd) =
      some (3 / 2) := by
  refine ⟨rfl, rfl, ?_⟩
  show arithmetic_mean [some 1, some 2] = some (3 / 2)
  have h1 : (([some 1, some 2] : List Val).filterMap id) = [1, 2] := rfl
  simp only [arithmetic_mean, h1, List.isEmpty_cons, Bool.false_eq_true,
    if_false]
  norm_num [List.sum_cons]

/-- C2 amended: for a row with exactly two non-missing values, provided at
least one of its valid stations has known coordinates, `thiessen_row`
returns exactly the arithmetic reduction of the row (the fewer-than-3-points
fallback); with zero non-missing values it returns NaN.  (When no valid
station has coordinates it returns NaN instead of the arithmetic mean.) -/
theorem thiessen_degradation_amended (voronoi : List (ℚ × ℚ) → VoronoiData)
    (clip : List (ℚ × ℚ) → Option ℚ)
    (station_coords : List (String × (ℚ × ℚ))) (row : List (String × Val)) :
    ((row_valid_vals row).length = 2 →
      0 < (row_points station_coords row).length →
      thiessen_row voronoi clip station_coords row =
        arithmetic_mean (row.map Prod.snd)) ∧
    ((row_valid_vals row).length = 0 →
      thiessen_row voronoi clip station_coords row = none) := by
  constructor
  · intro h2 hp
    have hle := row_points_length_le station_coords row
    have hst := row_valid_lengths row
    have h3 : ¬ 3 ≤ (row_points station_coords row).length := by omega
    unfold thiessen_row
    rw [if_neg h3, if_pos hp, arithmetic_mean_of_row]
  · intro h0
    have hst := row_valid_lengths row
    have hle := row_points_length_le station_coords row
    have h3 : ¬ 3 ≤ (row_points station_coords row).length := by omega
    have hp : ¬ 0 < (row_points station_coords row).length := by omega
    unfold thiessen_row
    rw [if_neg h3, if_neg hp]

/-- Witness for C2 amended: two valid stations, one of them located,
reduce to the arithmetic mean; an all-NaN row reduces to NaN. -/
theorem thiessen_degradation_amended_witness :
    thiessen_row trivVoronoi trivClip [("A", (0, 0))]
      [("A", some 1), ("B", some 2)] =
      arithmetic_mean ([("A", some 1), ("B", some 2)].map Prod.snd) ∧
    thiessen_row trivVoronoi trivClip [("A", (0, 0))] [("A", none)] = none :=
  ⟨(thiessen_degradation_amended trivVoronoi trivClip [("A", (0, 0))]
      [("A", some 1), ("B", some 2)]).1 rfl (by decide),
   (thiessen_degradation_amended trivVoronoi trivClip [("A", (0, 0))]
      [("A", none)]).2 rfl⟩

theorem getD_set_ne_gen {α : Type} (l : List α) (i j : ℕ) (v d : α)
    (h : i ≠ j) : (l.set i v).getD j d = l.getD j d := by
  simp [List.getD_eq_getElem?_getD, List.getElem?_set_ne h]

theorem getD_set_self_of_lt {α : Type} (l : List α) (i : ℕ) (v d : α)
    (h : i < l.length) : (l.set i v).getD i d = v := by
  rw [List.getD_eq_getElem?_getD, List.getElem?_set_self]
  · rfl
  · exact h

theorem lt_length_of_getD_some (rv : List Val) (k : ℕ) (v : ℚ)
    (h : rv.getD k none = some v) : k < rv.length := by
  by_contra hk
  rw [List.getD_eq_getElem?_getD, List.getElem?_eq_none (by omega)] at h
  cases h

theorem thiessenStep_eq (vor : VoronoiData) (clip : List (ℚ × ℚ) → Option ℚ)
    (vals : List ℚ) (acc : ℚ × ℚ) (i : ℕ) :
    thiessenStep vor clip vals acc i =
      (acc.1 + thiessen_term_area vor clip i,
       acc.2 + thiessen_term_weighted vor clip vals i) := by
  obtain ⟨a, w⟩ := acc
  unfold thiessenStep thiessen_term_area thiessen_term_weighted clipVal
  by_cases h : thiessen_skipped vor i
  · have h2 : (-1 : ℤ) ∈ regionOfPoint vor i ∨ regionOfPoint vor i = [] := h
    rw [if_pos h2]
    simp [h]
  · have h2 : ¬ ((-1 : ℤ) ∈ regionOfPoint vor i ∨ regionOfPoint vor i = []) := h
    rw [if_neg h2]
    cases hc : clip (regionVertices vor (regionOfPoint vor i)) with
    | none => simp [h, hc]
    | some area => simp [h, hc]

theorem thiessen_sums_spec (vor : VoronoiData) (clip : List (ℚ × ℚ) → Option ℚ)
    (vals : List ℚ) (n : ℕ) :
    (List.range n).foldl (thiessenStep vor clip vals) (0, 0) =
      (∑ i in Finset.range n, thiessen_term_area vor clip i,
       ∑ i in Finset.range n, thiessen_term_weighted vor clip vals i) := by
  induction n with
  | zero => simp
  | succ n ih =>
      rw [List.range_succ, List.foldl_append, List.foldl_cons, List.foldl_nil,
        ih, thiessenStep_eq, Finset.sum_range_succ, Finset.sum_range_succ]

theorem thiessen_sums_eq (vor : VoronoiData) (clip : List (ℚ × ℚ) → Option ℚ)
    (points : List (ℚ × ℚ)) (vals : List ℚ) :
    thiessen_sums vor clip points vals =
      (∑ i in Finset.range points.length, thiessen_term_area vor clip i,
       ∑ i in Finset.range points.length,
         thiessen_term_weighted vor clip vals i) :=
  thiessen_sums_spec vor clip vals points.length

theorem thiessen_sums_set (vor : VoronoiData) (clip : List (ℚ × ℚ) → Option ℚ)
    (points : List (ℚ × ℚ)) (vals : List ℚ) (j : ℕ) (v2 : ℚ)
    (hskip : thiessen_skipped vor j) :
    thiessen_sums vor clip points (vals.set j v2) =
      thiessen_sums vor clip points vals := by
  rw [thiessen_sums_eq, thiessen_sums_eq]
  have h2 : (∑ i in Finset.range points.length,
      thiessen_term_weighted vor clip (vals.set j v2) i) =
      ∑ i in Finset.range points.length,
        thiessen_term_weighted vor clip vals i := by
    apply Finset.sum_congr rfl
    intro i _
    unfold thiessen_term_weighted
    by_cases hs : thiessen_skipped vor i
    · rw [if_pos hs, if_pos hs]
    · rw [if_neg hs, if_neg hs]
      have hij : j ≠ i := by
        rintro rfl
        exact hs hskip
      rw [getD_set_ne_gen _ _ _ _ _ hij]
  rw [h2]

theorem thiessen_of_valid_set (vor : VoronoiData)
    (clip : List (ℚ × ℚ) → Option ℚ) (points : List (ℚ × ℚ)) (vals : List ℚ)
    (j : ℕ) (v2 : ℚ) (hskip : thiessen_skipped vor j) :
    thiessen_of_valid vor clip points (vals.set j v2) =
      thiessen_of_valid vor clip points vals := by
  unfold thiessen_of_valid
  rw [thiessen_sums_set vor clip points vals j v2 hskip]

theorem nodup_valid_indices (rainfall_values : List Val) :
    (valid_indices rainfall_values).Nodup :=
  (List.nodup_range _).filter _

theorem valid_indices_set (rainfall_values : List Val) (k : ℕ) (v v2 : ℚ)
    (hk : rainfall_values.getD k none = some v) :
    valid_indices (rainfall_values.set k (some v2)) =
      valid_indices rainfall_values := by
  unfold valid_indices
  rw [List.length_set]
  apply List.filter_congr
  intro i _
  by_cases hik : k = i
  · subst hik
    rw [getD_set_self_of_lt _ _ _ _ (lt_length_of_getD_some _ _ _ hk), hk]
    rfl
  · rw [getD_set_ne_gen _ _ _ _ _ hik]

theorem valid_points_set (station_points : List (ℚ × ℚ))
    (rainfall_values : List Val) (k : ℕ) (v v2 : ℚ)
    (hk : rainfall_values.getD k none = some v) :
    valid_points station_points (rainfall_values.set k (some v2)) =
      valid_points station_points rainfall_values := by
  unfold valid_points
  rw [valid_indices_set _ _ v _ hk]

theorem map_update_eq_set (l : List ℕ) (hnd : l.Nodup) (j k : ℕ)
    (hj : l[j]? = some k) (g g2 : ℕ → ℚ)
    (hg : ∀ i, i ≠ k → g2 i = g i) :
    l.map g2 = (l.map g).set j (g2 k) := by
  induction l generalizing j with
  | nil => cases hj
  | cons a t ih =>
      rcases j with _ | j
      · have hak : a = k := by simpa using hj
        subst hak
        have ht : t.map g2 = t.map g := by
          apply List.map_congr_left
          intro i hi
          exact hg i (by
            rintro rfl
            exact (List.nodup_cons.mp hnd).1 hi)
        simp [ht]
      · have hj2 : t[j]? = some k := by simpa using hj
        have hnd2 := (List.nodup_cons.mp hnd).2
        have hak : a ≠ k := by
          rintro rfl
          exact (List.nodup_cons.mp hnd).1 (List.getElem?_mem hj2)
        simp only [List.map_cons, List.set_cons_succ, ih hnd2 j hj2,
          hg a hak]

theorem valid_values_set (rainfall_values : List Val) (k j : ℕ) (v v2 : ℚ)
    (hk : rainfall_values.getD k none = some v)
    (hj : (valid_indices rainfall_values)[j]? = some k) :
    valid_values (rainfall_values.set k (some v2)) =
      (valid_values rainfall_values).set j v2 := by
  unfold valid_values
  rw [valid_indices_set _ _ v _ hk]
  have hmain := map_update_eq_set (valid_indices rainfall_values)
    (nodup_valid_indices rainfall_values) j k hj
    (fun i => (rainfall_values.getD i none).getD 0)
    (fun i => ((rainfall_values.set k (some v2)).getD i none).getD 0)
    (fun i hik => by
      show ((rainfall_values.set k (some v2)).getD i none).getD 0 =
        (rainfall_values.getD i none).getD 0
      rw [getD_set_ne_gen _ _ _ _ _ (fun h => hik h.symm)])
  rw [hmain]
  congr 1
  show ((rainfall_values.set k (some v2)).getD k none).getD 0 = v2
  rw [getD_set_self_of_lt _ _ _ _ (lt_length_of_getD_some _ _ _ hk)]
  rfl

/-- C10: in `thiessen_polygon_mean`, a valid station whose Voronoi region is
unbounded or empty (its vertex-index list contains `-1` — scipy's marking of
the cells of convex-hull points — or has length 0) is skipped: it
contributes `0` to `total_area` and to `weighted_sum`, both sums are
unchanged by any change of its rainfall value, and the final weighted
average is independent of its value. -/
theorem thiessen_skips_unbounded (voronoi : List (ℚ × ℚ) → VoronoiData)
    (clip : List (ℚ × ℚ) → Option ℚ) (station_points : List (ℚ × ℚ))
    (rainfall_values : List Val) (k j : ℕ) (v v2 : ℚ)
    (hk : rainfall_values.getD k none = some v)
    (hj : (valid_indices rainfall_values)[j]? = some k)
    (hskip : thiessen_skipped
      (voronoi (valid_points station_points rainfall_values)) j) :
    thiessen_term_area (voronoi (valid_points station_points rainfall_values))
      clip j = 0 ∧
    thiessen_term_weighted
      (voronoi (valid_points station_points rainfall_values)) clip
      (valid_values rainfall_values) j = 0 ∧
    thiessen_sums (voronoi (valid_points station_points rainfall_values))
      clip (valid_points station_points rainfall_values)
      ((valid_values rainfall_values).set j v2) =
      thiessen_sums (voronoi (valid_points station_points rainfall_values))
        clip (valid_points station_points rainfall_values)
        (valid_values rainfall_values) ∧
    thiessen_polygon_mean voronoi clip station_points
      (rainfall_values.set k (some v2)) =
      thiessen_polygon_mean voronoi clip station_points rainfall_values := by
  refine ⟨?_, ?_, ?_, ?_⟩
  · unfold thiessen_term_area
    rw [if_pos hskip]
  · unfold thiessen_term_weighted
    rw [if_pos hskip]
  · exact thiessen_sums_set _ _ _ _ _ _ hskip
  · unfold thiessen_polygon_mean
    rw [valid_indices_set _ _ v _ hk, valid_points_set _ _ _ v _ hk,
      valid_values_set _ _ _ v _ hk hj]
    by_cases he : (valid_indices rainfall_values).isEmpty
    · rw [if_pos he, if_pos he]
    · rw [if_neg he, if_neg he,
        thiessen_of_valid_set _ _ _ _ _ _ hskip]

/-- Witness for C10: in the three-station scenario station 0 is on the
convex hull, its region `[-1, 0]` is unbounded, and changing its rainfall
value from 1 to 99 leaves the Thiessen outcome unchanged. -/
theorem thiessen_skips_unbounded_witness :
    thiessen_term_area (tri_voronoi (valid_points tri_points
      [some 1, some 1, some 1])) tri_clip 0 = 0 ∧
    thiessen_term_weighted (tri_voronoi (valid_points tri_points
      [some 1, some 1, some 1])) tri_clip
      (valid_values [some 1, some 1, some 1]) 0 = 0 ∧
    thiessen_sums (tri_voronoi (valid_points tri_points
      [some 1, some 1, some 1])) tri_clip
      (valid_points tri_points [some 1, some 1, some 1])
      ((valid_values [some 1, some 1, some 1]).set 0 99) =
      thiessen_sums (tri_voronoi (valid_points tri_points
        [some 1, some 1, some 1])) tri_clip
        (valid_points tri_points [some 1, some 1, some 1])
        (valid_values [some 1, some 1, some 1]) ∧
    thiessen_polygon_mean tri_voronoi tri_clip tri_points
      (([some 1, some 1, some 1] : List Val).set 0 (some 99)) =
      thiessen_polygon_mean tri_voronoi tri_clip tri_points
        [some 1, some 1, some 1] :=
  thiessen_skips_unbounded tri_voronoi tri_clip tri_points
    [some 1, some 1, some 1] 0 0 1 99 rfl rfl (by decide)

/-- C1 counterexample: three valid stations at `(0,0)`, `(4,0)`, `(0,4)`
whose Voronoi cells cover the whole plane — hence the unit-square basin of
area 1, whose true cell∩basin areas are `1, 0, 0` — yet every cell is
unbounded, so the loop skips all three stations and the accumulated
`total_area` (the sum of Thiessen weights) is `0 ≠ 1`. -/
theorem thiessen_partition_of_unity_cex :
    3 ≤ (valid_points tri_points [some 1, some 1, some 1]).length ∧
    (∑ i in Finset.range
        (valid_points tri_points [some 1, some 1, some 1]).length,
      tri_cellArea i) = tri_basinArea ∧
    (∀ i < (valid_points tri_points [some 1, some 1, some 1]).length,
      ¬ thiessen_skipped (tri_voronoi (valid_points tri_points
        [some 1, some 1, some 1])) i →
      clipVal (tri_voronoi (valid_points tri_points
        [some 1, some 1, some 1])) tri_clip i = tri_cellArea i) ∧
    (thiessen_sums (tri_voronoi (valid_points tri_points
        [some 1, some 1, some 1])) tri_clip
      (valid_points tri_points [some 1, some 1, some 1])
      (valid_values [some 1, some 1, some 1])).1 ≠ tri_basinArea := by
  refine ⟨by decide, ?_, ?_, ?_⟩
  · show (∑ i in Finset.range 3, tri_cellArea i) = tri_basinArea
    rw [Finset.sum_range_succ, Finset.sum_range_succ, Finset.sum_range_succ]
    norm_num [tri_cellArea, tri_basinArea]
  · intro i hi hns
    have hi3 : i < 3 := by
      have hlen : (valid_points tri_points
          [some 1, some 1, some 1]).length = 3 := by decide
      rw [hlen] at hi
      exact hi
    exact absurd (by interval_cases i <;> decide) hns
  · have hz : thiessen_sums (tri_voronoi (valid_points tri_points
        [some 1, some 1, some 1])) tri_clip
        (valid_points tri_points [some 1, some 1, some 1])
        (valid_values [some 1, some 1, some 1]) = (0, 0) := rfl
    rw [hz]
    norm_num [tri_basinArea]

/-- C1 amended: the accumulated `total_area` equals the basin area *minus*
the basin area lying in skipped cells (unbounded — every convex-hull
station — or empty regions): `Σ weights = basinArea` only when no part of
the basin lies in a skipped cell.  `cellArea i` is the true area of valid
station `i`'s Voronoi cell intersected with the basin; covering is
`Σ cellArea = basinArea`, and the clip oracle agrees with `cellArea` on the
non-skipped cells. -/
theorem thiessen_partition_of_unity_amended
    (voronoi : List (ℚ × ℚ) → VoronoiData)
    (clip : List (ℚ × ℚ) → Option ℚ) (station_points : List (ℚ × ℚ))
    (rainfall_values : List Val) (cellArea : ℕ → ℚ) (basinArea : ℚ)
    (h3 : 3 ≤ (valid_points station_points rainfall_values).length)
    (hcover : (∑ i in Finset.range
        (valid_points station_points rainfall_values).length,
      cellArea i) = basinArea)
    (hcons : ∀ i < (valid_points station_points rainfall_values).length,
      ¬ thiessen_skipped
        (voronoi (valid_points station_points rainfall_values)) i →
      clipVal (voronoi (valid_points station_points rainfall_values))
        clip i = cellArea i) :
    (thiessen_sums (voronoi (valid_points station_points rainfall_values))
        clip (valid_points station_points rainfall_values)
        (valid_values rainfall_values)).1 =
      basinArea - ∑ i in Finset.range
          (valid_points station_points rainfall_values).length,
        (if thiessen_skipped
            (voronoi (valid_points station_points rainfall_values)) i then
          cellArea i else 0) := by
  rw [thiessen_sums_eq]
  have hstep : (∑ i in Finset.range
      (valid_points station_points rainfall_values).length,
      thiessen_term_area
        (voronoi (valid_points station_points rainfall_values)) clip i) =
      ∑ i in Finset.range
        (valid_points station_points rainfall_values).length,
        (cellArea i - if thiessen_skipped
            (voronoi (valid_points station_points rainfall_values)) i then
          cellArea i else 0) := by
    apply Finset.sum_congr rfl
    intro i hi
    unfold thiessen_term_area
    by_cases hs : thiessen_skipped
      (voronoi (valid_points station_points rainfall_values)) i
    · rw [if_pos hs, if_pos hs]
      ring
    · rw [if_neg hs, if_neg hs,
        hcons i (Finset.mem_range.mp hi) hs]
      ring
  simp only [hstep]
  rw [Finset.sum_sub_distrib, hcover]

/-- Witness for C1 amended in the three-station scenario: the whole basin
lies in skipped cells, so `total_area = 1 - 1 = 0`. -/
theorem thiessen_partition_of_unity_amended_witness :
    (thiessen_sums (tri_voronoi (valid_points tri_points
        [some 1, some 1, some 1])) tri_clip
      (valid_points tri_points [some 1, some 1, some 1])
      (valid_values [some 1, some 1, some 1])).1 =
      tri_basinArea - ∑ i in Finset.range
          (valid_points tri_points [some 1, some 1, some 1]).length,
        (if thiessen_skipped (tri_voronoi (valid_points tri_points
            [some 1, some 1, some 1])) i then
          tri_cellArea i else 0) :=
  thiessen_partition_of_unity_amended tri_voronoi tri_clip tri_points
    [some 1, some 1, some 1] tri_cellArea tri_basinArea (by decide)
    (by
      show (∑ i in Finset.range 3, tri_cellArea i) = tri_basinArea
      rw [Finset.sum_range_succ, Finset.sum_range_succ,
        Finset.sum_range_succ]
      norm_num [tri_cellArea, tri_basinArea])
    (by
      intro i hi hns
      have hi3 : i < 3 := by
        have hlen : (valid_points tri_points
            [some 1, some 1, some 1]).length = 3 := by decide
        rw [hlen] at hi
        exact hi
      exact absurd (by interval_cases i <;> decide) hns)

theorem dist2_eq_zero_iff (a b : ℚ × ℚ) : dist2 a b = 0 ↔ a = b := by
  unfold dist2
  constructor
  · intro h
    have h1 : (a.1 - b.1) ^ 2 = 0 := by nlinarith [sq_nonneg (a.1 - b.1), sq_nonneg (a.2 - b.2)]
    have h2 : (a.2 - b.2) ^ 2 = 0 := by nlinarith [sq_nonneg (a.1 - b.1), sq_nonneg (a.2 - b.2)]
    have e1 : a.1 = b.1 := by
      have h := sq_eq_zero_iff.mp h1
      linarith [sub_eq_zero.mp h]
    have e2 : a.2 = b.2 := by
      have h := sq_eq_zero_iff.mp h2
      linarith [sub_eq_zero.mp h]
    exact Prod.ext e1 e2
  · rintro rfl
    ring

theorem findIdx?_eq_some_of_first (p : ℚ → Bool) :
    ∀ (l : List ℚ) (k : ℕ) (hk : k < l.length),
      p (l.get ⟨k, hk⟩) = true →
      (∀ j (hj : j < l.length), j < k → p (l.get ⟨j, hj⟩) = false) →
      l.findIdx? p = some k := by
  intro l
  induction l with
  | nil =>
      intro k hk
      exact absurd hk (Nat.not_lt_zero k)
  | cons a t ih =>
      intro k hk hpk hprev
      cases k with
      | zero =>
          have hpa : p a = true := hpk
          simp [List.findIdx?_cons, hpa]
      | succ k =>
          have hpa : p a = false := hprev 0 (by omega) (by omega)
          have hk2 : k < t.length := by
            simpa using hk
          have hpk2 : p (t.get ⟨k, hk2⟩) = true := by
            simpa using hpk
          have hprev2 : ∀ j (hj : j < t.length), j < k →
              p (t.get ⟨j, hj⟩) = false := by
            intro j hj hjk
            have := hprev (j + 1) (by simpa using Nat.succ_lt_succ hj)
              (by omega)
            simpa using this
          simp [List.findIdx?_cons, hpa, ih k hk2 hpk2 hprev2]

theorem idw_at_point_zero (points : List (ℚ × ℚ)) (vals : List ℚ)
    (g : ℚ × ℚ) (pHalf k : ℕ) (hk : k < points.length)
    (hzero : dist2 (points.get ⟨k, hk⟩) g = 0)
    (hdistinct : points.Pairwise (· ≠ ·)) :
    idw_at_point points vals g pHalf = vals.getD k 0 := by
  simp only [idw_at_point]
  have hg : points.get ⟨k, hk⟩ = g := (dist2_eq_zero_iff _ _).mp hzero
  have hklen : k < (points.map (fun s => dist2 s g)).length := by
    simpa using hk
  have hfind : (points.map (fun s => dist2 s g)).findIdx?
      (fun d => d == 0) = some k := by
    apply findIdx?_eq_some_of_first _ _ k hklen
    · have : (points.map (fun s => dist2 s g)).get ⟨k, hklen⟩ =
          dist2 (points.get ⟨k, hk⟩) g := by
        simp
      rw [this, hzero]
      simp
    · intro j hj hjk
      have hjp : j < points.length := by
        simpa using hj
      have hget : (points.map (fun s => dist2 s g)).get ⟨j, hj⟩ =
          dist2 (points.get ⟨j, hjp⟩) g := by
        simp
      have hne : points.get ⟨j, hjp⟩ ≠ points.get ⟨k, hk⟩ := by
        have := List.pairwise_iff_get.mp hdistinct ⟨j, hjp⟩ ⟨k, hk⟩
          (by simpa using hjk)
        exact this
      have hd : dist2 (points.get ⟨j, hjp⟩) g ≠ 0 := by
        rw [Ne, dist2_eq_zero_iff]
        rw [hg] at hne
        exact hne
      rw [hget]
      simpa using hd
  rw [hfind]

/-- C7: when a grid point is at squared distance exactly 0 from the `k`-th
valid station (and the valid station locations are pairwise distinct, so
that station is unique), the per-grid-point IDW estimate equals that
station's value exactly — whatever the other stations' values are — and
with that single grid point the whole `inverse_distance_weighting` call
returns exactly that station's value. -/
theorem idw_coincidence (station_points : List (ℚ × ℚ))
    (rainfall_values : List Val) (g : ℚ × ℚ) (pHalf k : ℕ)
    (hk : k < (valid_points station_points rainfall_values).length)
    (hzero : dist2 ((valid_points station_points rainfall_values).get
      ⟨k, hk⟩) g = 0)
    (hdistinct : (valid_points station_points rainfall_values).Pairwise
      (· ≠ ·)) :
    idw_at_point (valid_points station_points rainfall_values)
      (valid_values rainfall_values) g pHalf =
      (valid_values rainfall_values).getD k 0 ∧
    inverse_distance_weighting station_points rainfall_values [g] pHalf =
      some ((valid_values rainfall_values).getD k 0) := by
  have h1 := idw_at_point_zero (valid_points station_points rainfall_values)
    (valid_values rainfall_values) g pHalf k hk hzero hdistinct
  refine ⟨h1, ?_⟩
  unfold inverse_distance_weighting
  have hne : ¬ (valid_indices rainfall_values).isEmpty = true := by
    intro h
    rw [List.isEmpty_iff] at h
    unfold valid_points at hk
    rw [h] at hk
    simp at hk
  rw [if_neg hne]
  simp only [List.map_cons, List.map_nil]
  rw [h1]
  simp

/-- Witness for C7: stations at `(0,0)` (value 5) and `(1,0)` (value 7)
with the single grid point `(0,0)`: the IDW result is exactly 5. -/
theorem idw_coincidence_witness :
    idw_at_point (valid_points [(0, 0), (1, 0)] [some 5, some 7])
      (valid_values [some 5, some 7]) (0, 0) 1 =
      (valid_values [some 5, some 7]).getD 0 0 ∧
    inverse_distance_weighting [(0, 0), (1, 0)] [some 5, some 7] [(0, 0)]
      1 = some ((valid_values [some 5, some 7]).getD 0 0) :=
  idw_coincidence [(0, 0), (1, 0)] [some 5, some 7] (0, 0) 1 0 (by decide)
    (by
      have hget : (valid_points [(0, 0), (1, 0)]
          [some 5, some 7]).get ⟨0, by decide⟩ = ((0 : ℚ), (0 : ℚ)) := by
        decide
      rw [hget]
      unfold dist2
      norm_num)
    (by decide)

theorem foldl_min_spec : ∀ (ts : List ℕ) (t : ℕ),
    (ts.foldl Nat.min t = t ∨ ts.foldl Nat.min t ∈ ts) ∧
    ts.foldl Nat.min t ≤ t ∧ (∀ u ∈ ts, ts.foldl Nat.min t ≤ u) := by
  intro ts
  induction ts with
  | nil =>
      intro t
      exact ⟨Or.inl rfl, Nat.le_refl t,
        fun u hu => absurd hu (List.not_mem_nil u)⟩
  | cons a r ih =>
      intro t
      obtain ⟨h1, h2, h3⟩ := ih (Nat.min t a)
      rw [List.foldl_cons]
      refine ⟨?_, ?_, ?_⟩
      · rcases h1 with h | h
        · rw [h]
          by_cases hta : t ≤ a
          · refine Or.inl ?_
            show (if t ≤ a then t else a) = t
            rw [if_pos hta]
          · refine Or.inr ?_
            have hmin : t.min a = a := by
              show (if t ≤ a then t else a) = a
              rw [if_neg hta]
            rw [hmin]
            exact List.mem_cons_self a r
        · exact Or.inr (List.mem_cons_of_mem a h)
      · exact le_trans h2 (Nat.min_le_left t a)
      · intro u hu
        rcases List.mem_cons.mp hu with rfl | hu2
        · exact le_trans h2 (Nat.min_le_right t u)
        · exact h3 u hu2

theorem foldl_max_spec : ∀ (ts : List ℕ) (t : ℕ),
    (ts.foldl Nat.max t = t ∨ ts.foldl Nat.max t ∈ ts) ∧
    t ≤ ts.foldl Nat.max t ∧ (∀ u ∈ ts, u ≤ ts.foldl Nat.max t) := by
  intro ts
  induction ts with
  | nil =>
      intro t
      exact ⟨Or.inl rfl, Nat.le_refl t,
        fun u hu => absurd hu (List.not_mem_nil u)⟩
  | cons a r ih =>
      intro t
      obtain ⟨h1, h2, h3⟩ := ih (Nat.max t a)
      rw [List.foldl_cons]
      refine ⟨?_, ?_, ?_⟩
      · rcases h1 with h | h
        · rw [h]
          by_cases hta : t ≤ a
          · refine Or.inr ?_
            have hmax : t.max a = a := by
              show (if t ≤ a then a else t) = a
              rw [if_pos hta]
            rw [hmax]
            exact List.mem_cons_self a r
          · refine Or.inl ?_
            show (if t ≤ a then a else t) = t
            rw [if_neg hta]
        · exact Or.inr (List.mem_cons_of_mem a h)
      · exact le_trans (Nat.le_max_left t a) h2
      · intro u hu
        rcases List.mem_cons.mp hu with rfl | hu2
        · exact le_trans (Nat.le_max_right t u) h2
        · exact h3 u hu2

theorem seriesMin_spec (rs : List (ℕ × ℚ)) (h : rs ≠ []) :
    ∃ m, seriesMin rs = some m ∧ m ∈ rs.map Prod.fst ∧
      ∀ u ∈ rs.map Prod.fst, m ≤ u := by
  rcases hm : rs.map Prod.fst with _ | ⟨t0, ts⟩
  · exact absurd (List.map_eq_nil_iff.mp hm) h
  · obtain ⟨h1, h2, h3⟩ := foldl_min_spec ts t0
    refine ⟨ts.foldl Nat.min t0, ?_, ?_, ?_⟩
    · unfold seriesMin
      rw [hm]
    · rcases h1 with h1 | h1
      · rw [h1]
        exact List.mem_cons_self t0 ts
      · exact List.mem_cons_of_mem t0 h1
    · intro u hu
      rcases List.mem_cons.mp hu with rfl | hu2
      · exact h2
      · exact h3 u hu2

theorem seriesMax_spec (rs : List (ℕ × ℚ)) (h : rs ≠ []) :
    ∃ m, seriesMax rs = some m ∧ m ∈ rs.map Prod.fst ∧
      ∀ u ∈ rs.map Prod.fst, u ≤ m := by
  rcases hm : rs.map Prod.fst with _ | ⟨t0, ts⟩
  · exact absurd (List.map_eq_nil_iff.mp hm) h
  · obtain ⟨h1, h2, h3⟩ := foldl_max_spec ts t0
    refine ⟨ts.foldl Nat.max t0, ?_, ?_, ?_⟩
    · unfold seriesMax
      rw [hm]
    · rcases h1 with h1 | h1
      · rw [h1]
        exact List.mem_cons_self t0 ts
      · exact List.mem_cons_of_mem t0 h1
    · intro u hu
      rcases List.mem_cons.mp hu with rfl | hu2
      · exact h2
      · exact h3 u hu2

theorem allT_cons (p : String × List (ℕ × ℚ))
    (r : List (String × List (ℕ × ℚ))) :
    allT (p :: r) = p.2.map Prod.fst ++ allT r := rfl

theorem foldl_updMin_some (dfs : List (String × List (ℕ × ℚ)))
    (hall : ∀ p ∈ dfs, p.2 ≠ []) : ∀ c : ℕ,
    ∃ z, dfs.foldl (fun acc p => updMin acc (seriesMin p.2))
      (some (some c)) = some (some z) ∧ z ≤ c ∧
      (z = c ∨ z ∈ allT dfs) ∧ ∀ t ∈ allT dfs, z ≤ t := by
  induction dfs with
  | nil =>
      intro c
      exact ⟨c, rfl, Nat.le_refl c, Or.inl rfl, by simp [allT]⟩
  | cons p r ih =>
      intro c
      obtain ⟨m, hm, hmmem, hmle⟩ :=
        seriesMin_spec p.2 (hall p (List.mem_cons_self p r))
      have ihr := ih (fun q hq => hall q (List.mem_cons_of_mem p hq))
      rw [List.foldl_cons, hm]
      by_cases hmc : m < c
      · have hupd : updMin (some (some c)) (some m) = some (some m) := by
          simp [updMin, ltTM, hmc]
        rw [hupd]
        obtain ⟨z, hz, hzc, hzmem, hzb⟩ := ihr m
        refine ⟨z, hz, by omega, ?_, ?_⟩
        · rcases hzmem with rfl | hzmem
          · exact Or.inr (by
              rw [allT_cons]
              exact List.mem_append_left _ hmmem)
          · exact Or.inr (by
              rw [allT_cons]
              exact List.mem_append_right _ hzmem)
        · intro t ht
          rw [allT_cons] at ht
          rcases List.mem_append.mp ht with ht | ht
          · exact le_trans hzc (hmle t ht)
          · exact hzb t ht
      · have hupd : updMin (some (some c)) (some m) = some (some c) := by
          simp [updMin, ltTM, hmc]
        rw [hupd]
        obtain ⟨z, hz, hzc, hzmem, hzb⟩ := ihr c
        refine ⟨z, hz, hzc, ?_, ?_⟩
        · rcases hzmem with rfl | hzmem
          · exact Or.inl rfl
          · exact Or.inr (by
              rw [allT_cons]
              exact List.mem_append_right _ hzmem)
        · intro t ht
          rw [allT_cons] at ht
          rcases List.mem_append.mp ht with ht | ht
          · exact le_trans hzc (le_trans (by omega) (hmle t ht))
          · exact hzb t ht

theorem foldl_updMax_some2 (dfs : List (String × List (ℕ × ℚ)))
    (hall : ∀ p ∈ dfs, p.2 ≠ []) : ∀ c : ℕ,
    ∃ z, dfs.foldl (fun acc p => updMax acc (seriesMax p.2))
      (some (some c)) = some (some z) ∧ c ≤ z ∧
      (z = c ∨ z ∈ allT dfs) ∧ ∀ t ∈ allT dfs, t ≤ z := by
  induction dfs with
  | nil =>
      intro c
      exact ⟨c, rfl, Nat.le_refl c, Or.inl rfl, by simp [allT]⟩
  | cons p r ih =>
      intro c
      obtain ⟨m, hm, hmmem, hmle⟩ :=
        seriesMax_spec p.2 (hall p (List.mem_cons_self p r))
      have ihr := ih (fun q hq => hall q (List.mem_cons_of_mem p hq))
      rw [List.foldl_cons, hm]
      by_cases hmc : c < m
      · have hupd : updMax (some (some c)) (some m) = some (some m) := by
          simp [updMax, gtTM, hmc]
        rw [hupd]
        obtain ⟨z, hz, hzc, hzmem, hzb⟩ := ihr m
        refine ⟨z, hz, by omega, ?_, ?_⟩
        · rcases hzmem with rfl | hzmem
          · exact Or.inr (by
              rw [allT_cons]
              exact List.mem_append_left _ hmmem)
          · exact Or.inr (by
              rw [allT_cons]
              exact List.mem_append_right _ hzmem)
        · intro t ht
          rw [allT_cons] at ht
          rcases List.mem_append.mp ht with ht | ht
          · exact le_trans (hmle t ht) hzc
          · exact hzb t ht
      · have hupd : updMax (some (some c)) (some m) = some (some c) := by
          simp [updMax, gtTM, hmc]
        rw [hupd]
        obtain ⟨z, hz, hzc, hzmem, hzb⟩ := ihr c
        refine ⟨z, hz, hzc, ?_, ?_⟩
        · rcases hzmem with rfl | hzmem
          · exact Or.inl rfl
          · exact Or.inr (by
              rw [allT_cons]
              exact List.mem_append_right _ hzmem)
        · intro t ht
          rw [allT_cons] at ht
          rcases List.mem_append.mp ht with ht | ht
          · exact le_trans (hmle t ht) (le_trans (by omega) hzc)
          · exact hzb t ht

theorem overallMin_spec (dfs : List (String × List (ℕ × ℚ)))
    (hne : dfs ≠ []) (hall : ∀ p ∈ dfs, p.2 ≠ []) :
    ∃ x, overallMin dfs = some (some x) ∧ x ∈ allT dfs ∧
      ∀ t ∈ allT dfs, x ≤ t := by
  rcases dfs with _ | ⟨p, r⟩
  · exact absurd rfl hne
  · obtain ⟨m, hm, hmmem, hmle⟩ :=
      seriesMin_spec p.2 (hall p (List.mem_cons_self p r))
    obtain ⟨z, hz, hzc, hzmem, hzb⟩ :=
      foldl_updMin_some r (fun q hq => hall q (List.mem_cons_of_mem p hq)) m
    refine ⟨z, ?_, ?_, ?_⟩
    · unfold overallMin
      rw [List.foldl_cons, hm]
      have hupd : updMin none (some m) = some (some m) := rfl
      rw [hupd]
      exact hz
    · rw [allT_cons]
      rcases hzmem with rfl | hzmem
      · exact List.mem_append_left _ hmmem
      · exact List.mem_append_right _ hzmem
    · intro t ht
      rw [allT_cons] at ht
      rcases List.mem_append.mp ht with ht | ht
      · exact le_trans hzc (hmle t ht)
      · exact hzb t ht

theorem overallMax_spec (dfs : List (String × List (ℕ × ℚ)))
    (hne : dfs ≠ []) (hall : ∀ p ∈ dfs, p.2 ≠ []) :
    ∃ y, overallMax dfs = some (some y) ∧ y ∈ allT dfs ∧
      ∀ t ∈ allT dfs, t ≤ y := by
  rcases dfs with _ | ⟨p, r⟩
  · exact absurd rfl hne
  · obtain ⟨m, hm, hmmem, hmle⟩ :=
      seriesMax_spec p.2 (hall p (List.mem_cons_self p r))
    obtain ⟨z, hz, hzc, hzmem, hzb⟩ :=
      foldl_updMax_some2 r (fun q hq => hall q (List.mem_cons_of_mem p hq)) m
    refine ⟨z, ?_, ?_, ?_⟩
    · unfold overallMax
      rw [List.foldl_cons, hm]
      have hupd : updMax none (some m) = some (some m) := rfl
      rw [hupd]
      exact hz
    · rw [allT_cons]
      rcases hzmem with rfl | hzmem
      · exact List.mem_append_left _ hmmem
      · exact List.mem_append_right _ hzmem
    · intro t ht
      rw [allT_cons] at ht
      rcases List.mem_append.mp ht with ht | ht
      · exact le_trans (hmle t ht) hzc
      · exact hzb t ht

theorem loadStations_mem_of (stations : List (String × Option (List (ℕ × ℚ))))
    (name : String) (rs : List (ℕ × ℚ)) (h : (name, some rs) ∈ stations) :
    (name, rs) ∈ loadStations stations :=
  List.mem_filterMap.mpr ⟨(name, some rs), h, rfl⟩

theorem loadStations_forall_ne
    (stations : List (String × Option (List (ℕ × ℚ))))
    (hall : ∀ e ∈ stations, ∃ rs, e.2 = some rs ∧ rs ≠ []) :
    ∀ p ∈ loadStations stations, p.2 ≠ [] := by
  intro p hp
  rcases List.mem_filterMap.mp hp with ⟨e, he, hf⟩
  rcases hall e he with ⟨rs, hrs, hne⟩
  rw [hrs] at hf
  have hf2 : some (e.1, rs) = some p := hf
  have hf3 := Option.some.inj hf2
  rw [← hf3]
  exact hne

theorem loadStations_ne_nil
    (stations : List (String × Option (List (ℕ × ℚ))))
    (hne : stations ≠ [])
    (hall : ∀ e ∈ stations, ∃ rs, e.2 = some rs ∧ rs ≠ []) :
    loadStations stations ≠ [] := by
  rcases stations with _ | ⟨e, t⟩
  · exact absurd rfl hne
  · rcases hall e (List.mem_cons_self e t) with ⟨rs, hrs, _⟩
    unfold loadStations
    rw [List.filterMap_cons, hrs]
    exact List.cons_ne_nil _ _

theorem date_range_h_mem (x y t : ℕ) (hxy : x ≤ y) :
    t ∈ date_range_h x y ↔ x ≤ t ∧ t ≤ y := by
  unfold date_range_h
  rw [if_neg (by omega)]
  simp only [List.mem_map, List.mem_range]
  constructor
  · rintro ⟨k, hk, rfl⟩
    omega
  · rintro ⟨h1, h2⟩
    exact ⟨t - x, by omega, by omega⟩

theorem date_range_h_length (x y : ℕ) (hxy : x ≤ y) :
    (date_range_h x y).length = y - x + 1 := by
  unfold date_range_h
  rw [if_neg (by omega)]
  simp

theorem date_range_h_getD (x y i : ℕ) (hxy : x ≤ y) (hi : i < y - x + 1) :
    (date_range_h x y).getD i 0 = x + i := by
  unfold date_range_h
  rw [if_neg (by omega)]
  have hlen : i < ((List.range (y - x + 1)).map (fun k => x + k)).length := by
    simpa using hi
  rw [getD_eq_get_of_lt _ _ _ hlen]
  simp

theorem process_eq_table (stations : List (String × Option (List (ℕ × ℚ))))
    (x y : ℕ) (hne : loadStations stations ≠ [])
    (hmin : overallMin (loadStations stations) = some (some x))
    (hmax : overallMax (loadStations stations) = some (some y)) :
    process_rainfall_for_basin stations = AlignOutcome.table (date_range_h x y)
      ((loadStations stations).map
        (fun p => (p.1, (date_range_h x y).map (fun t => dedupAt p.2 t)))) := by
  obtain ⟨d, ds, hd⟩ := List.exists_cons_of_ne_nil hne
  simp only [process_rainfall_for_basin]
  rw [hd] at hmin hmax ⊢
  rw [hmin, hmax]

theorem process_table_inv (stations : List (String × Option (List (ℕ × ℚ))))
    (axis : List ℕ) (cols : List (String × List (Option ℚ)))
    (hp : process_rainfall_for_basin stations = AlignOutcome.table axis cols) :
    cols = (loadStations stations).map
      (fun p => (p.1, axis.map (fun t => dedupAt p.2 t))) := by
  simp only [process_rainfall_for_basin] at hp
  split at hp
  · exact AlignOutcome.noConfusion hp
  · exact AlignOutcome.noConfusion hp
  · exact AlignOutcome.noConfusion hp
  · exact AlignOutcome.noConfusion hp
  · exact AlignOutcome.noConfusion hp
  · injection hp with h1 h2
    subst h1
    exact h2.symm

/-- C8: for a non-empty station collection where every station has a file
with at least one reading, the alignment output is a table whose timestamp
axis is the hourly sequence from the minimum over all stations' timestamps
to the maximum, inclusive; the axis contains exactly the hours between the
two bounds (no gaps) and consecutive axis entries differ by exactly one
hour. -/
theorem alignment_axis_complete
    (stations : List (String × Option (List (ℕ × ℚ))))
    (hne : stations ≠ [])
    (hall : ∀ e ∈ stations, ∃ rs, e.2 = some rs ∧ rs ≠ []) :
    ∃ x y cols,
      process_rainfall_for_basin stations =
        AlignOutcome.table (date_range_h x y) cols ∧
      x ∈ allTimestamps stations ∧
      (∀ t ∈ allTimestamps stations, x ≤ t) ∧
      y ∈ allTimestamps stations ∧
      (∀ t ∈ allTimestamps stations, t ≤ y) ∧
      (∀ t, t ∈ date_range_h x y ↔ x ≤ t ∧ t ≤ y) ∧
      (∀ i, i + 1 < (date_range_h x y).length →
        (date_range_h x y).getD (i + 1) 0 =
          (date_range_h x y).getD i 0 + 1) := by
  have hldne := loadStations_ne_nil stations hne hall
  have hallne := loadStations_forall_ne stations hall
  obtain ⟨x, hmin, hxmem, hxle⟩ := overallMin_spec _ hldne hallne
  obtain ⟨y, hmax, hymem, hyle⟩ := overallMax_spec _ hldne hallne
  have hxy : x ≤ y := hxle y hymem
  refine ⟨x, y, _, process_eq_table stations x y hldne hmin hmax,
    hxmem, hxle, hymem, hyle, fun t => date_range_h_mem x y t hxy, ?_⟩
  intro i hi
  rw [date_range_h_length x y hxy] at hi
  rw [date_range_h_getD x y i hxy (by omega),
    date_range_h_getD x y (i + 1) hxy (by omega)]
  omega

/-- Witness for C8 at two stations with readings at hours 3 and 5: the
aligned axis is the gap-free hourly sequence `[3, 4, 5]`. -/
theorem alignment_axis_complete_witness :
    ∃ x y cols,
      process_rainfall_for_basin [("A", some [(3, 1)]), ("B", some [(5, 2)])] =
        AlignOutcome.table (date_range_h x y) cols ∧
      x ∈ allTimestamps [("A", some [(3, 1)]), ("B", some [(5, 2)])] ∧
      (∀ t ∈ allTimestamps [("A", some [(3, 1)]), ("B", some [(5, 2)])],
        x ≤ t) ∧
      y ∈ allTimestamps [("A", some [(3, 1)]), ("B", some [(5, 2)])] ∧
      (∀ t ∈ allTimestamps [("A", some [(3, 1)]), ("B", some [(5, 2)])],
        t ≤ y) ∧
      (∀ t, t ∈ date_range_h x y ↔ x ≤ t ∧ t ≤ y) ∧
      (∀ i, i + 1 < (date_range_h x y).length →
        (date_range_h x y).getD (i + 1) 0 =
          (date_range_h x y).getD i 0 + 1) :=
  alignment_axis_complete [("A", some [(3, 1)]), ("B", some [(5, 2)])]
    (by decide)
    (by
      intro e he
      rcases List.mem_cons.mp he with rfl | he2
      · exact ⟨[(3, 1)], rfl, by decide⟩
      · rcases List.mem_cons.mp he2 with rfl | he3
        · exact ⟨[(5, 2)], rfl, by decide⟩
        · cases he3)

/-- C9: duplicate records of one station at the same timestamp are
collapsed by arithmetic averaging: the aligned table carries, for each
station, the column mapping each axis hour `t` to `dedupAt`, and `dedupAt`
on two records `(t, a)`, `(t, b)` yields the single value `(a + b) / 2` —
in particular values 3.0 and 5.0 collapse to 4.0, never to the first
record's value. -/
theorem dedup_mean (stations : List (String × Option (List (ℕ × ℚ))))
    (name : String) (rs : List (ℕ × ℚ)) (hne : stations ≠ [])
    (hall : ∀ e ∈ stations, ∃ rs2, e.2 = some rs2 ∧ rs2 ≠ [])
    (hmem : (name, some rs) ∈ stations) :
    ∃ axis cols,
      process_rainfall_for_basin stations = AlignOutcome.table axis cols ∧
      (name, axis.map (fun t => dedupAt rs t)) ∈ cols ∧
      ∀ (t : ℕ) (a b : ℚ), dedupAt [(t, a), (t, b)] t = some ((a + b) / 2) := by
  have hldne := loadStations_ne_nil stations hne hall
  have hallne := loadStations_forall_ne stations hall
  obtain ⟨x, hmin, hxmem, hxle⟩ := overallMin_spec _ hldne hallne
  obtain ⟨y, hmax, hymem, hyle⟩ := overallMax_spec _ hldne hallne
  refine ⟨date_range_h x y, _,
    process_eq_table stations x y hldne hmin hmax, ?_, ?_⟩
  · exact List.mem_map_of_mem _ (loadStations_mem_of stations name rs hmem)
  · intro t a b
    have hfil : ([(t, a), (t, b)].filter (fun r => r.1 == t)) =
        [(t, a), (t, b)] := by
      simp
    simp only [dedupAt, hfil]
    norm_num

/-- Witness for C9: station `"A"` reporting 3.0 and 5.0 at hour 5 is
aligned to the single value 4.0 (an instance of the `(a + b) / 2` clause
at `a = 3`, `b = 5`). -/
theorem dedup_mean_witness :
    ∃ axis cols,
      process_rainfall_for_basin [("A", some [(5, 3), (5, 5)])] =
        AlignOutcome.table axis cols ∧
      ("A", axis.map (fun t => dedupAt [(5, 3), (5, 5)] t)) ∈ cols ∧
      ∀ (t : ℕ) (a b : ℚ), dedupAt [(t, a), (t, b)] t = some ((a + b) / 2) :=
  dedup_mean [("A", some [(5, 3), (5, 5)])] "A" [(5, 3), (5, 5)]
    (by decide)
    (by
      intro e he
      rcases List.mem_cons.mp he with rfl | he2
      · exact ⟨[(5, 3), (5, 5)], rfl, by decide⟩
      · cases he2)
    (List.mem_cons_self _ _)

end HydroData
